import Mathlib

/-!
Shallow embedding of the Knowledge Base core of the `llm-chat-app` backend:
the fixed-window chunker (`DocumentService.chunkText`), the Knowledge Base
store (`KnowledgeBaseService`), the embedding gateway
(`EmbeddingService.generateEmbeddings`) and the retrieval engine
(`RetrievalService.indexChunks` / `search` / `deleteKnowledgeBase`).

Modelling conventions:
* JS strings are Lean `String`s; character offsets are `Nat`.
* JS numbers that hold similarity scores / distances are modelled as `ℚ`
  (the claims under study are order-theoretic, not about float rounding).
* Counters (`documentCount`, `chunkCount`) are `Int`: the source applies
  arbitrary signed deltas with no clamping.
* `Date` values are opaque `Nat` timestamps passed in by the caller.
* Fresh UUIDs are I/O; where the source calls `uuidv4()` the id is passed
  as an explicit argument (or, for chunk ids inside `chunkText`, left `""`,
  since no claim inspects chunk ids produced by the chunker).
* External services (Chroma, OpenAI, OLLAMA) appear as explicit function
  arguments; persistent state (the per-KB vector collections, the KB
  metadata files) is explicit state of type `Store` / `KBStore`.
-/

/-- `DocumentChunk` from `types/documents.ts`.  `startChar`/`endChar` are
optional in the TS type but are always set by `chunkText` and always stored
by `indexChunks`, so they are modelled as plain `Nat`.  The open `metadata`
record is not modelled (no claim touches it). -/
structure DocumentChunk where
  id : String
  documentId : String
  content : String
  chunkIndex : Nat
  startChar : Nat
  endChar : Nat
deriving DecidableEq

namespace DocumentService

/-- The while-loop of `DocumentService.chunkText` (documentService.ts).
`fuel` is the number of chunk-producing iterations still allowed: the source
breaks as soon as the iteration counter exceeds `maxIterations = 100000`,
so the loop body runs to completion at most 100000 times.  Each iteration
emits the chunk `[startIndex, min (startIndex+chunkSize) (text.length))`,
then computes `newStartIndex = endIndex - overlap` (a possibly negative JS
number, hence `Int`) and breaks when `newStartIndex >= endIndex` or
`newStartIndex <= startIndex`. -/
def chunkTextAux (text : String) (chunkSize overlap : Nat) :
    Nat → Nat → Nat → List DocumentChunk
  | 0, _, _ => []
  | fuel + 1, startIndex, chunkIdx =>
    if startIndex < text.length then
      let endIndex := min (startIndex + chunkSize) text.length
      let content := ((text.drop startIndex).take (endIndex - startIndex)).trim
      let chunk : DocumentChunk :=
        { id := "", documentId := "", content := content, chunkIndex := chunkIdx,
          startChar := startIndex, endChar := endIndex }
      let newStartIndex : Int := (endIndex : Int) - (overlap : Int)
      if (endIndex : Int) ≤ newStartIndex ∨ newStartIndex ≤ (startIndex : Int) then
        [chunk]
      else
        chunk :: chunkTextAux text chunkSize overlap fuel newStartIndex.toNat (chunkIdx + 1)
    else []

/-- `DocumentService.chunkText(text, chunkSize = 1000, overlap = 200)`:
runs the loop from `startIndex = 0`, `chunkIndex = 0` with the
`maxIterations = 100000` safety bound. -/
def chunkText (text : String) (chunkSize : Nat := 1000) (overlap : Nat := 200) :
    List DocumentChunk :=
  chunkTextAux text chunkSize overlap 100000 0 0

/-- The `(chunkIndex, startChar, endChar)` skeleton of `chunkTextAux`: the
same loop, forgetting chunk contents.  The offsets computed by the loop
depend only on `text.length`, so this lets concrete runs be evaluated
without walking a long character list.  `chunkTextAux_offsets` below proves
the correspondence. -/
def chunkOffsetsAux (len chunkSize overlap : Nat) :
    Nat → Nat → Nat → List (Nat × Nat × Nat)
  | 0, _, _ => []
  | fuel + 1, startIndex, chunkIdx =>
    if startIndex < len then
      if ((min (startIndex + chunkSize) len : Nat) : Int) ≤
            ((min (startIndex + chunkSize) len : Nat) : Int) - (overlap : Int) ∨
          ((min (startIndex + chunkSize) len : Nat) : Int) - (overlap : Int) ≤
            (startIndex : Int) then
        [(chunkIdx, startIndex, min (startIndex + chunkSize) len)]
      else
        (chunkIdx, startIndex, min (startIndex + chunkSize) len) ::
          chunkOffsetsAux len chunkSize overlap fuel
            (((min (startIndex + chunkSize) len : Nat) : Int) - (overlap : Int)).toNat
            (chunkIdx + 1)
    else []

end DocumentService

/-- `KnowledgeBaseConfig` from `types/knowledge-bases.ts`.  `retrievalTopK`
and `retrievalThreshold` are optional in the TS interface (hence `Option`);
the enum-typed fields are modelled as strings. -/
structure KnowledgeBaseConfig where
  embeddingProvider : String
  embeddingModel : String
  chunkingStrategy : String
  chunkSize : Nat
  overlap : Nat
  retrievalTopK : Option Nat
  retrievalThreshold : Option ℚ
deriving DecidableEq

/-- The TS type of `request.config`: every field possibly absent. -/
structure KnowledgeBaseConfigDelta where
  embeddingProvider : Option String := none
  embeddingModel : Option String := none
  chunkingStrategy : Option String := none
  chunkSize : Option Nat := none
  overlap : Option Nat := none
  retrievalTopK : Option Nat := none
  retrievalThreshold : Option ℚ := none
deriving DecidableEq

/-- `KnowledgeBase` from `types/knowledge-bases.ts`.  Dates are opaque
`Nat` timestamps; the counters are `Int` because the service applies
arbitrary signed deltas with no clamping. -/
structure KnowledgeBase where
  id : String
  name : String
  description : Option String
  config : KnowledgeBaseConfig
  documentCount : Int
  chunkCount : Int
  createdAt : Nat
  updatedAt : Nat
deriving DecidableEq

/-- `KnowledgeBaseCreateRequest`.  `getOrCreateDefaultKB` calls `createKB`
with no `config` at all, so an absent config is modelled as the all-`none`
delta. -/
structure KnowledgeBaseCreateRequest where
  name : String
  description : Option String := none
  config : KnowledgeBaseConfigDelta := {}
deriving DecidableEq

/-- `KnowledgeBaseUpdateRequest`: all fields optional. -/
structure KnowledgeBaseUpdateRequest where
  name : Option String := none
  description : Option String := none
  config : Option KnowledgeBaseConfigDelta := none
deriving DecidableEq

namespace KnowledgeBaseService

/-- `DEFAULT_KB_CONFIG` from the service source. -/
def DEFAULT_KB_CONFIG : KnowledgeBaseConfig :=
  { embeddingProvider := "openai"
    embeddingModel := "text-embedding-3-small"
    chunkingStrategy := "fixed"
    chunkSize := 1000
    overlap := 200
    retrievalTopK := some 5
    retrievalThreshold := some (7 / 10) }

/-- `mergeConfig`: the JS spread of the delta over `DEFAULT_KB_CONFIG` — a
field present in the delta wins, otherwise the default applies. -/
def mergeConfig (p : KnowledgeBaseConfigDelta) : KnowledgeBaseConfig :=
  { embeddingProvider := p.embeddingProvider.getD DEFAULT_KB_CONFIG.embeddingProvider
    embeddingModel := p.embeddingModel.getD DEFAULT_KB_CONFIG.embeddingModel
    chunkingStrategy := p.chunkingStrategy.getD DEFAULT_KB_CONFIG.chunkingStrategy
    chunkSize := p.chunkSize.getD DEFAULT_KB_CONFIG.chunkSize
    overlap := p.overlap.getD DEFAULT_KB_CONFIG.overlap
    retrievalTopK :=
      match p.retrievalTopK with
      | some v => some v
      | none => DEFAULT_KB_CONFIG.retrievalTopK
    retrievalThreshold :=
      match p.retrievalThreshold with
      | some v => some v
      | none => DEFAULT_KB_CONFIG.retrievalThreshold }

/-- The JS spread of `request.config` over the full `kb.config` used by
`updateKB`: all fields of the base config are present, then the delta's
fields win. -/
def overlayConfig (base : KnowledgeBaseConfig) (p : KnowledgeBaseConfigDelta) :
    KnowledgeBaseConfigDelta :=
  { embeddingProvider := some (p.embeddingProvider.getD base.embeddingProvider)
    embeddingModel := some (p.embeddingModel.getD base.embeddingModel)
    chunkingStrategy := some (p.chunkingStrategy.getD base.chunkingStrategy)
    chunkSize := some (p.chunkSize.getD base.chunkSize)
    overlap := some (p.overlap.getD base.overlap)
    retrievalTopK :=
      match p.retrievalTopK with
      | some v => some v
      | none => base.retrievalTopK
    retrievalThreshold :=
      match p.retrievalThreshold with
      | some v => some v
      | none => base.retrievalThreshold }

/-- `createKB`: the KnowledgeBase value built by the service.  The fresh
uuid `kbId` and the timestamp `now` are passed in (they are I/O in the
source). -/
def createKB (request : KnowledgeBaseCreateRequest) (kbId : String) (now : Nat) :
    KnowledgeBase :=
  { id := kbId
    name := request.name
    description := request.description
    config := mergeConfig request.config
    documentCount := 0
    chunkCount := 0
    createdAt := now
    updatedAt := now }

/-- `updateKB` applied to a KB already loaded from the store: name and
description are replaced when provided, `config` becomes
`mergeConfig` of the overlay of the delta on `kb.config` when a config
delta is provided, and `updatedAt` is refreshed. -/
def updateKB (kb : KnowledgeBase) (request : KnowledgeBaseUpdateRequest) (now : Nat) :
    KnowledgeBase :=
  let kb1 :=
    match request.name with
    | some n => { kb with name := n }
    | none => kb
  let kb2 :=
    match request.description with
    | some d => { kb1 with description := some d }
    | none => kb1
  let kb3 :=
    match request.config with
    | some p => { kb2 with config := mergeConfig (overlayConfig kb2.config p) }
    | none => kb2
  { kb3 with updatedAt := now }

/-- The KB metadata directory: one JSON file per KB id. -/
def KBStore : Type := String → Option KnowledgeBase

/-- Write one KB file (`fs.writeFileSync` on the per-id JSON file). -/
def setKB (s : KBStore) (kbId : String) (kb : KnowledgeBase) : KBStore :=
  fun i => if i = kbId then some kb else s i

/-- Store-level `createKB`: writes the new KB under its id. -/
def createKBStore (s : KBStore) (request : KnowledgeBaseCreateRequest)
    (kbId : String) (now : Nat) : KBStore :=
  setKB s kbId (createKB request kbId now)

/-- Store-level `updateKB`: returns `null` and leaves the store unchanged
when the KB does not exist. -/
def updateKBStore (s : KBStore) (kbId : String) (request : KnowledgeBaseUpdateRequest)
    (now : Nat) : KBStore :=
  match s kbId with
  | none => s
  | some kb => setKB s kbId (updateKB kb request now)

/-- `incrementDocumentCount(kbId, delta)`: read-modify-write of the KB file;
silent no-op when the KB is missing. -/
def incrementDocumentCount (s : KBStore) (kbId : String) (delta : Int) (now : Nat) :
    KBStore :=
  match s kbId with
  | none => s
  | some kb =>
      setKB s kbId { kb with documentCount := kb.documentCount + delta, updatedAt := now }

/-- `incrementChunkCount(kbId, delta)`: same shape for the chunk counter. -/
def incrementChunkCount (s : KBStore) (kbId : String) (delta : Int) (now : Nat) :
    KBStore :=
  match s kbId with
  | none => s
  | some kb =>
      setKB s kbId { kb with chunkCount := kb.chunkCount + delta, updatedAt := now }

end KnowledgeBaseService

/-- One call into `KnowledgeBaseService` (the operations named by the
counter-invariant claim). -/
inductive KBOp where
  | create (request : KnowledgeBaseCreateRequest) (kbId : String) (now : Nat)
  | update (kbId : String) (request : KnowledgeBaseUpdateRequest) (now : Nat)
  | incDoc (kbId : String) (delta : Int) (now : Nat)
  | incChunk (kbId : String) (delta : Int) (now : Nat)

namespace KnowledgeBaseService

/-- Apply one operation to the KB store. -/
def applyOp (s : KBStore) : KBOp → KBStore
  | .create request kbId now => createKBStore s request kbId now
  | .update kbId request now => updateKBStore s kbId request now
  | .incDoc kbId delta now => incrementDocumentCount s kbId delta now
  | .incChunk kbId delta now => incrementChunkCount s kbId delta now

/-- Apply a sequence of operations in order. -/
def applyOps (s : KBStore) (ops : List KBOp) : KBStore :=
  ops.foldl applyOp s

/-- Every KB record in the store has non-negative counters. -/
def countersNonneg (s : KBStore) : Prop :=
  ∀ id kb, s id = some kb → 0 ≤ kb.documentCount ∧ 0 ≤ kb.chunkCount

/-- A decrement is allowed only when it keeps the targeted counter
non-negative (the guard of the amended counter claim). -/
def opGuard (s : KBStore) : KBOp → Bool
  | .incDoc kbId delta _ =>
      match s kbId with
      | none => true
      | some kb => decide (0 ≤ kb.documentCount + delta)
  | .incChunk kbId delta _ =>
      match s kbId with
      | none => true
      | some kb => decide (0 ≤ kb.chunkCount + delta)
  | _ => true

/-- All operations of a run satisfy `opGuard` in the state they execute in. -/
def guardedOps : KBStore → List KBOp → Bool
  | _, [] => true
  | s, op :: rest => opGuard s op && guardedOps (applyOp s op) rest

end KnowledgeBaseService

/-- `RetrievalParams` from `retrievalService.ts`.  `metadataFilter` is the
exact-match `where` clause forwarded to the vector backend, modelled as a
key/value list. -/
structure RetrievalParams where
  topK : Option Nat := none
  similarityThreshold : Option ℚ := none
  metadataFilter : Option (List (String × String)) := none

/-- One hit returned by the vector backend for a query: the stored id,
document text, the typed metadata written by `indexChunks`, and the
distance of the stored vector to the query vector. -/
structure QueryRow where
  id : String
  document : String
  documentId : String
  chunkIndex : Nat
  startChar : Nat
  endChar : Nat
  distance : ℚ
deriving DecidableEq

/-- `RetrievalResult` from `retrievalService.ts`. -/
structure RetrievalResult where
  chunk : DocumentChunk
  similarity : ℚ
  documentId : String
  knowledgeBaseId : String
deriving DecidableEq

/-- One record of a per-KB vector collection, as written by `indexChunks`:
the chunk id as key, the embedding vector, the chunk text, and the typed
metadata fields. -/
structure StoredRecord where
  id : String
  embedding : List ℚ
  document : String
  documentId : String
  knowledgeBaseId : String
  chunkIndex : Nat
  startChar : Nat
  endChar : Nat
deriving DecidableEq

/-- The Chroma server's state: collection name → collection contents
(`none` when no collection of that name exists). -/
def Store : Type := String → Option (List StoredRecord)

namespace EmbeddingService

/-- The sequential for-loop of `generateEmbeddings` for the OLLAMA/local
providers: embed one text at a time, stopping at the first failure.
`embed` stands for `generateEmbedding` (a network call in the source). -/
def embedEach (embed : String → Except String (List ℚ)) :
    List String → Except String (List (List ℚ))
  | [] => .ok []
  | t :: ts =>
    match embed t with
    | .error e => .error e
    | .ok v =>
      match embedEach embed ts with
      | .error e => .error e
      | .ok vs => .ok (v :: vs)

/-- `EmbeddingService.generateEmbeddings(texts, provider, model)`: the
`openai` provider uses one batched API call (`embedBatch`, all-or-nothing);
every other provider embeds the texts one at a time via `embed`. -/
def generateEmbeddings (provider : String)
    (embedBatch : List String → Except String (List (List ℚ)))
    (embed : String → Except String (List ℚ))
    (texts : List String) : Except String (List (List ℚ)) :=
  if provider = "openai" then embedBatch texts else embedEach embed texts

end EmbeddingService

namespace RetrievalService

/-- `getCollectionName(kbId)`: each KB's records live in the collection
named from the KB id. -/
def getCollectionName (kbId : String) : String :=
  "kb_" ++ kbId

/-- `getOrCreateCollection`: the existing records of the KB's collection
(an absent collection is created empty, so it reads as `[]`). -/
def getOrCreateCollection (s : Store) (kb : KnowledgeBase) : List StoredRecord :=
  (s (getCollectionName kb.id)).getD []

/-- `RetrievalService.indexChunks(kb, documentId, chunks)`: embed all chunk
contents with the KB's configured provider, then add one record per chunk
(keyed by the chunk's id, tagged with the KB's id) to the KB's collection.
The returned pair is (call outcome, resulting Chroma state): when embedding
fails the call throws and the state is unchanged — `collection.add` is
never reached. -/
def indexChunks
    (embedBatch : List String → Except String (List (List ℚ)))
    (embed : String → Except String (List ℚ))
    (kb : KnowledgeBase) (documentId : String) (chunks : List DocumentChunk)
    (s : Store) : Except String Unit × Store :=
  match EmbeddingService.generateEmbeddings kb.config.embeddingProvider
      embedBatch embed (chunks.map DocumentChunk.content) with
  | .error e => (.error e, s)
  | .ok embs =>
    let collName := getCollectionName kb.id
    let existing := getOrCreateCollection s kb
    let recs := (chunks.zip embs).map fun ce =>
      { id := ce.1.id
        embedding := ce.2
        document := ce.1.content
        documentId := documentId
        knowledgeBaseId := kb.id
        chunkIndex := ce.1.chunkIndex
        startChar := ce.1.startChar
        endChar := ce.1.endChar : StoredRecord }
    (.ok (), fun n => if n = collName then some (existing ++ recs) else s n)

/-- `topK = params.topK ?? kb.config.retrievalTopK ?? 5` (source line of
`search`). -/
def resolveTopK (kb : KnowledgeBase) (params : RetrievalParams) : Nat :=
  params.topK.getD (kb.config.retrievalTopK.getD 5)

/-- `threshold = params.similarityThreshold ?? kb.config.retrievalThreshold
?? 0.7`. -/
def resolveThreshold (kb : KnowledgeBase) (params : RetrievalParams) : ℚ :=
  params.similarityThreshold.getD (kb.config.retrievalThreshold.getD (7 / 10))

/-- The `RetrievalResult` built for one query row that passed the threshold
filter: `similarity = 1 − distance` and `knowledgeBaseId = kb.id`. -/
def rowToResult (kb : KnowledgeBase) (row : QueryRow) : RetrievalResult :=
  { chunk :=
      { id := row.id
        documentId := row.documentId
        content := row.document
        chunkIndex := row.chunkIndex
        startChar := row.startChar
        endChar := row.endChar }
    similarity := 1 - row.distance
    documentId := row.documentId
    knowledgeBaseId := kb.id }

/-- `RetrievalService.search(kb, query, params)`.  The embedding of the
query text and the nearest-neighbour lookup are external calls, modelled by
`query : nResults → whereClause → rows` (the rows the backend returns for
the KB's collection).  The transform loop converts each distance to
`1 − distance`, skips rows below the resolved threshold, tags results with
`kb.id`, and finally sorts descending by similarity (the JS comparator
`(a, b) => b.similarity - a.similarity`, stable). -/
def search (kb : KnowledgeBase) (params : RetrievalParams)
    (query : Nat → List (String × String) → List QueryRow) : List RetrievalResult :=
  ((query (resolveTopK kb params) (params.metadataFilter.getD [])).filterMap fun row =>
      if 1 - row.distance < resolveThreshold kb params then none
      else some (rowToResult kb row)).mergeSort
    fun a b => decide (b.similarity ≤ a.similarity)

/-- `search` wired to the Chroma state: the backend selects rows from the
KB's own collection (`select` models the nearest-neighbour computation over
that collection's records). -/
def searchStore (kb : KnowledgeBase) (params : RetrievalParams) (s : Store)
    (select : List StoredRecord → Nat → List (String × String) → List QueryRow) :
    List RetrievalResult :=
  search kb params fun k w => select (getOrCreateCollection s kb) k w

/-- `client.deleteCollection({name})`: fails when no collection of that
name exists, otherwise removes it. -/
def deleteCollection (s : Store) (name : String) : Except String Store :=
  match s name with
  | some _ => .ok fun n => if n = name then none else s n
  | none => .error ("Collection " ++ name ++ " does not exist.")

/-- `RetrievalService.deleteKnowledgeBase(kb)`: deletes the KB's collection;
a missing-collection error is caught, logged and swallowed, so the call is
total (never raises) and leaves the state unchanged in that case. -/
def deleteKnowledgeBase (kb : KnowledgeBase) (s : Store) : Store :=
  match deleteCollection s (getCollectionName kb.id) with
  | .ok s' => s'
  | .error _ => s

end RetrievalService

/-! ## Chunker lemmas -/

set_option maxRecDepth 4000

/-- The offsets of the chunks produced by the chunker loop depend only on
the length of the text. -/
theorem chunkTextAux_offsets (text : String) (cs ov : Nat) :
    ∀ fuel startIndex chunkIdx,
      (DocumentService.chunkTextAux text cs ov fuel startIndex chunkIdx).map
        (fun c => (c.chunkIndex, c.startChar, c.endChar)) =
      DocumentService.chunkOffsetsAux text.length cs ov fuel startIndex chunkIdx := by
  intro fuel
  induction fuel with
  | zero =>
    intro s i
    simp [DocumentService.chunkTextAux, DocumentService.chunkOffsetsAux]
  | succ f ih =>
    intro s i
    simp only [DocumentService.chunkTextAux, DocumentService.chunkOffsetsAux]
    split_ifs with hs hg
    · simp
    · simp [ih]
    · simp

/-- The chunker loop never produces more chunks than it has fuel. -/
theorem chunkOffsetsAux_length_le (len cs ov : Nat) :
    ∀ fuel s i, (DocumentService.chunkOffsetsAux len cs ov fuel s i).length ≤ fuel := by
  intro fuel
  induction fuel with
  | zero =>
    intro s i
    simp [DocumentService.chunkOffsetsAux]
  | succ f ih =>
    intro s i
    simp only [DocumentService.chunkOffsetsAux]
    split_ifs with hs hg
    · simp
    · simpa using ih _ _
    · simp

/-- When `overlap ≥ chunkSize`, the non-advancing-window guard fires right
after the first chunk. -/
theorem chunkOffsetsAux_break (len cs ov : Nat) (h : cs ≤ ov)
    (fuel s i : Nat) (hs : s < len) :
    DocumentService.chunkOffsetsAux len cs ov (fuel + 1) s i =
      [(i, s, min (s + cs) len)] := by
  simp only [DocumentService.chunkOffsetsAux]
  rw [if_pos hs, if_pos ?_]
  refine Or.inr ?_
  have hm : min (s + cs) len ≤ s + cs := Nat.min_le_left _ _
  omega

/-- Coverage of every position of the text, provided the overlap is
positive (so the `newStart >= end` guard cannot fire early) and the fuel
suffices for the text length. -/
theorem chunkOffsetsAux_cover (len cs ov : Nat) (hov : 1 ≤ ov) (hlt : ov < cs) :
    ∀ fuel s i p, s ≤ p → p < len → len ≤ s + fuel * (cs - ov) →
      ∃ o ∈ DocumentService.chunkOffsetsAux len cs ov fuel s i,
        o.2.1 ≤ p ∧ p < o.2.2 := by
  intro fuel
  induction fuel with
  | zero =>
    intro s i p hsp hp hlen
    simp only [Nat.zero_mul, Nat.add_zero] at hlen
    omega
  | succ f ih =>
    intro s i p hsp hp hlen
    have hs : s < len := lt_of_le_of_lt hsp hp
    simp only [DocumentService.chunkOffsetsAux]
    rw [if_pos hs]
    by_cases hpe : p < min (s + cs) len
    · split_ifs with hg
      · exact ⟨(i, s, min (s + cs) len), by simp, hsp, hpe⟩
      · exact ⟨(i, s, min (s + cs) len), by simp, hsp, hpe⟩
    · have hple : min (s + cs) len ≤ p := le_of_not_lt hpe
      have hlt2 : min (s + cs) len < len := lt_of_le_of_lt hple hp
      have hmin : min (s + cs) len = s + cs := by omega
      have hguard : ¬(((min (s + cs) len : Nat) : Int) ≤
            ((min (s + cs) len : Nat) : Int) - (ov : Int) ∨
          ((min (s + cs) len : Nat) : Int) - (ov : Int) ≤ (s : Int)) := by
        rw [hmin]
        push_cast
        omega
      rw [if_neg hguard]
      have harg : (((min (s + cs) len : Nat) : Int) - (ov : Int)).toNat = s + (cs - ov) := by
        rw [hmin]
        omega
      rw [harg]
      have hmul : (f + 1) * (cs - ov) = (cs - ov) + f * (cs - ov) := by ring
      rw [hmul, ← Nat.add_assoc] at hlen
      obtain ⟨o, ho, h1, h2⟩ := ih (s + (cs - ov)) (i + 1) p (by omega) hp hlen
      exact ⟨o, List.mem_cons_of_mem _ ho, h1, h2⟩

/-- The emitted chunk indices are consecutive, starting at the initial
index. -/
theorem chunkOffsetsAux_fst (len cs ov : Nat) :
    ∀ fuel s i,
      (DocumentService.chunkOffsetsAux len cs ov fuel s i).map Prod.fst =
      List.range' i (DocumentService.chunkOffsetsAux len cs ov fuel s i).length := by
  intro fuel
  induction fuel with
  | zero =>
    intro s i
    rfl
  | succ f ih =>
    intro s i
    simp only [DocumentService.chunkOffsetsAux]
    split_ifs with hs hg
    · simp [List.range']
    · simp [ih, List.range']
    · rfl

/-- Transfer of list length from `chunkText` to the offsets skeleton. -/
theorem chunkText_length_eq (text : String) (cs ov : Nat) :
    (DocumentService.chunkText text cs ov).length =
      (DocumentService.chunkOffsetsAux text.length cs ov 100000 0 0).length := by
  rw [← chunkTextAux_offsets text cs ov 100000 0 0, List.length_map]
  rfl

/-- Length of a string made of a replicated character. -/
theorem length_mk_replicate (n : Nat) (c : Char) :
    (String.mk (List.replicate n c)).length = n := by
  simp [String.length]

/-! ## Claim theorems: chunker -/

/-- C3 (amended): for texts short enough for the 100000-iteration safety
bound and `1 ≤ overlap < chunkSize` within the validated ranges, the chunk
ranges `[startChar, endChar)` cover `[0, text.length)` with no gaps, and
the `chunkIndex` values are exactly `0..n-1` in order.  (The claim's
original `overlap = 0` case is refuted by `chunkText_coverage_cex`: with
zero overlap the `newStart >= end` guard stops the loop after the first
chunk.) -/
theorem chunkText_coverage_amended (text : String) (cs ov : Nat)
    (h1 : 100 ≤ cs) (h2 : cs ≤ 10000) (h3 : 1 ≤ ov) (h4 : ov ≤ 1000) (h5 : ov < cs)
    (h6 : text.length ≤ 100000 * (cs - ov)) :
    (∀ p < text.length, ∃ c ∈ DocumentService.chunkText text cs ov,
        c.startChar ≤ p ∧ p < c.endChar) ∧
    (DocumentService.chunkText text cs ov).map DocumentChunk.chunkIndex =
      List.range (DocumentService.chunkText text cs ov).length := by
  constructor
  · intro p hp
    have h6' : text.length ≤ 0 + 100000 * (cs - ov) := by simpa using h6
    obtain ⟨o, ho, ho1, ho2⟩ :=
      chunkOffsetsAux_cover text.length cs ov h3 h5 100000 0 0 p (Nat.zero_le p) hp h6'
    rw [← chunkTextAux_offsets] at ho
    obtain ⟨c, hc, hfc⟩ := List.mem_map.mp ho
    subst hfc
    exact ⟨c, hc, ho1, ho2⟩
  · have h8 := chunkOffsetsAux_fst text.length cs ov 100000 0 0
    rw [← chunkTextAux_offsets, List.map_map, List.length_map] at h8
    have h9 : (Prod.fst ∘ fun c : DocumentChunk => (c.chunkIndex, c.startChar, c.endChar)) =
        DocumentChunk.chunkIndex := rfl
    rw [h9] at h8
    rw [List.range_eq_range']
    exact h8

/-- C3 witness instance: a 250-character text with `chunkSize = 100`,
`overlap = 50`. -/
theorem chunkText_coverage_amended_witness :
    (∀ p < (String.mk (List.replicate 250 'a')).length,
        ∃ c ∈ DocumentService.chunkText (String.mk (List.replicate 250 'a')) 100 50,
          c.startChar ≤ p ∧ p < c.endChar) ∧
    (DocumentService.chunkText (String.mk (List.replicate 250 'a')) 100 50).map
        DocumentChunk.chunkIndex =
      List.range
        (DocumentService.chunkText (String.mk (List.replicate 250 'a')) 100 50).length :=
  chunkText_coverage_amended (String.mk (List.replicate 250 'a')) 100 50
    (by norm_num) (by norm_num) (by norm_num) (by norm_num) (by norm_num)
    (by rw [length_mk_replicate]; norm_num)

/-- C3 counterexample: with `overlap = 0` — inside the validated ranges and
satisfying `overlap < chunkSize` — chunking a 250-character text with
`chunkSize = 100` emits only the chunk `[0, 100)` (the `newStart >= end`
guard fires immediately), so position 100 of the text is not covered. -/
theorem chunkText_coverage_cex :
    100 ≤ 100 ∧ 100 ≤ 10000 ∧ 0 ≤ 1000 ∧ 0 < 100 ∧
    ¬ (∀ p < (String.mk (List.replicate 250 'a')).length,
        ∃ c ∈ DocumentService.chunkText (String.mk (List.replicate 250 'a')) 100 0,
          c.startChar ≤ p ∧ p < c.endChar) := by
  refine ⟨by norm_num, by norm_num, by norm_num, by norm_num, ?_⟩
  intro h
  obtain ⟨c, hc, hle, hlt⟩ := h 100 (by rw [length_mk_replicate]; norm_num)
  have hmem : (c.chunkIndex, c.startChar, c.endChar) ∈
      (DocumentService.chunkText (String.mk (List.replicate 250 'a')) 100 0).map
        (fun c => (c.chunkIndex, c.startChar, c.endChar)) :=
    List.mem_map_of_mem _ hc
  rw [DocumentService.chunkText, chunkTextAux_offsets, length_mk_replicate] at hmem
  have heval : DocumentService.chunkOffsetsAux 250 100 0 100000 0 0 = [(0, 0, 100)] := by
    decide
  rw [heval] at hmem
  simp only [List.mem_singleton, Prod.mk.injEq] at hmem
  omega

/-- Out-of-range start produces no chunks, whatever the fuel. -/
theorem chunkOffsetsAux_nil (len cs ov : Nat) (fuel s i : Nat) (h : ¬ s < len) :
    DocumentService.chunkOffsetsAux len cs ov fuel s i = [] := by
  cases fuel with
  | zero => rfl
  | succ f =>
    simp only [DocumentService.chunkOffsetsAux]
    rw [if_neg h]

/-- C4: the chunker always terminates.  When `overlap ≥ chunkSize` the
non-advancing-window guard breaks the loop immediately after the first
chunk (so exactly one chunk for non-empty text), and for all inputs
whatsoever the `maxIterations = 100000` bound caps the number of
chunk-producing iterations.  The model is a total function, so the "return
the chunks produced so far rather than hang" behaviour is the equation
itself. -/
theorem chunkText_termination (text : String) (cs ov : Nat) :
    (cs ≤ ov → (DocumentService.chunkText text cs ov).length ≤ 1) ∧
    (cs ≤ ov → 0 < text.length → (DocumentService.chunkText text cs ov).length = 1) ∧
    (DocumentService.chunkText text cs ov).length ≤ 100000 := by
  have h100 : (100000 : Nat) = 99999 + 1 := rfl
  refine ⟨?_, ?_, ?_⟩
  · intro h
    rw [chunkText_length_eq]
    by_cases h0 : 0 < text.length
    · rw [h100, chunkOffsetsAux_break text.length cs ov h 99999 0 0 h0]
      norm_num
    · rw [chunkOffsetsAux_nil text.length cs ov 100000 0 0 h0]
      norm_num
  · intro h h0
    rw [chunkText_length_eq, h100, chunkOffsetsAux_break text.length cs ov h 99999 0 0 h0]
    rfl
  · rw [chunkText_length_eq]
    exact chunkOffsetsAux_length_le text.length cs ov 100000 0 0

/-- C4 witness instance: `chunkSize = 100`, `overlap = 150` on a
10000-character text gives exactly one chunk, within the global bound. -/
theorem chunkText_termination_witness :
    100 ≤ 150 ∧
    (DocumentService.chunkText (String.mk (List.replicate 10000 'a')) 100 150).length = 1 ∧
    (DocumentService.chunkText (String.mk (List.replicate 10000 'a')) 100 150).length ≤
      100000 :=
  ⟨by norm_num,
    (chunkText_termination (String.mk (List.replicate 10000 'a')) 100 150).2.1
      (by norm_num) (by rw [length_mk_replicate]; norm_num),
    (chunkText_termination (String.mk (List.replicate 10000 'a')) 100 150).2.2⟩

/-- C5 (amended): chunking a 2500-character text with `chunkSize = 1000`,
`overlap = 200` produces exactly FOUR chunks `[0,1000)`, `[800,1800)`,
`[1600,2500)`, `[2300,2500)` with indices 0..3: each subsequent start is
the previous end minus 200 (including the fourth: 2300 = 2500 − 200) and
the trailing chunks are shorter; the claim's three-chunk list misses the
final `[2300,2500)` window emitted before the non-advancing guard fires. -/
theorem chunkText_scenario2500_amended :
    (DocumentService.chunkText (String.mk (List.replicate 2500 'a')) 1000 200).map
      (fun c => (c.chunkIndex, c.startChar, c.endChar)) =
      [(0, 0, 1000), (1, 800, 1800), (2, 1600, 2500), (3, 2300, 2500)] := by
  rw [DocumentService.chunkText, chunkTextAux_offsets, length_mk_replicate]
  decide

/-- C5 counterexample: the run produces 4 chunks, not the 3 the claim
states. -/
theorem chunkText_scenario2500_cex :
    (DocumentService.chunkText (String.mk (List.replicate 2500 'a')) 1000 200).length ≠ 3 := by
  have h4 : (DocumentService.chunkText (String.mk (List.replicate 2500 'a')) 1000 200).length
      = 4 := by
    rw [chunkText_length_eq, length_mk_replicate]
    decide
  omega

/-! ## Claim theorems: Knowledge Base store -/

/-- `updateKB` only ever rewrites `name`, `description`, `config` and
`updatedAt`; the counters pass through untouched. -/
theorem updateKB_counts (kb : KnowledgeBase) (request : KnowledgeBaseUpdateRequest)
    (now : Nat) :
    (KnowledgeBaseService.updateKB kb request now).documentCount = kb.documentCount ∧
    (KnowledgeBaseService.updateKB kb request now).chunkCount = kb.chunkCount := by
  obtain ⟨rn, rd, rc⟩ := request
  cases rn <;> cases rd <;> cases rc <;> simp [KnowledgeBaseService.updateKB]

/-- The config produced by `updateKB`, by case on whether a config delta
was provided. -/
theorem updateKB_config (kb : KnowledgeBase) (request : KnowledgeBaseUpdateRequest)
    (now : Nat) :
    (KnowledgeBaseService.updateKB kb request now).config =
      match request.config with
      | none => kb.config
      | some p => KnowledgeBaseService.mergeConfig
          (KnowledgeBaseService.overlayConfig kb.config p) := by
  obtain ⟨rn, rd, rc⟩ := request
  cases rn <;> cases rd <;> cases rc <;> rfl

/-- C6: `createKB` returns a KB whose config is the documented default
overridden only by the fields present in `request.config`, with both
counters zero; and `updateKB` leaves every config field not present in the
partial request at its prior value (for a KB whose optional retrieval
fields are populated, as every KB built by `createKB` is). -/
theorem kb_config_merge
    (r : KnowledgeBaseCreateRequest) (kbId : String) (now₁ : Nat)
    (kb : KnowledgeBase) (req : KnowledgeBaseUpdateRequest) (now₂ : Nat)
    (tk : Nat) (th : ℚ)
    (h1 : kb.config.retrievalTopK = some tk)
    (h2 : kb.config.retrievalThreshold = some th) :
    (KnowledgeBaseService.createKB r kbId now₁).documentCount = 0 ∧
    (KnowledgeBaseService.createKB r kbId now₁).chunkCount = 0 ∧
    (KnowledgeBaseService.createKB r kbId now₁).config.embeddingProvider =
      r.config.embeddingProvider.getD "openai" ∧
    (KnowledgeBaseService.createKB r kbId now₁).config.embeddingModel =
      r.config.embeddingModel.getD "text-embedding-3-small" ∧
    (KnowledgeBaseService.createKB r kbId now₁).config.chunkingStrategy =
      r.config.chunkingStrategy.getD "fixed" ∧
    (KnowledgeBaseService.createKB r kbId now₁).config.chunkSize =
      r.config.chunkSize.getD 1000 ∧
    (KnowledgeBaseService.createKB r kbId now₁).config.overlap =
      r.config.overlap.getD 200 ∧
    (KnowledgeBaseService.createKB r kbId now₁).config.retrievalTopK =
      some (r.config.retrievalTopK.getD 5) ∧
    (KnowledgeBaseService.createKB r kbId now₁).config.retrievalThreshold =
      some (r.config.retrievalThreshold.getD (7 / 10)) ∧
    (KnowledgeBaseService.updateKB kb req now₂).config.embeddingProvider =
      ((req.config.getD {}).embeddingProvider).getD kb.config.embeddingProvider ∧
    (KnowledgeBaseService.updateKB kb req now₂).config.embeddingModel =
      ((req.config.getD {}).embeddingModel).getD kb.config.embeddingModel ∧
    (KnowledgeBaseService.updateKB kb req now₂).config.chunkingStrategy =
      ((req.config.getD {}).chunkingStrategy).getD kb.config.chunkingStrategy ∧
    (KnowledgeBaseService.updateKB kb req now₂).config.chunkSize =
      ((req.config.getD {}).chunkSize).getD kb.config.chunkSize ∧
    (KnowledgeBaseService.updateKB kb req now₂).config.overlap =
      ((req.config.getD {}).overlap).getD kb.config.overlap ∧
    (KnowledgeBaseService.updateKB kb req now₂).config.retrievalTopK =
      some (((req.config.getD {}).retrievalTopK).getD tk) ∧
    (KnowledgeBaseService.updateKB kb req now₂).config.retrievalThreshold =
      some (((req.config.getD {}).retrievalThreshold).getD th) := by
  refine ⟨rfl, rfl, rfl, rfl, rfl, rfl, rfl, ?_, ?_, ?_, ?_, ?_, ?_, ?_, ?_, ?_⟩
  · cases hr : r.config.retrievalTopK <;>
      simp [KnowledgeBaseService.createKB, KnowledgeBaseService.mergeConfig, hr,
        KnowledgeBaseService.DEFAULT_KB_CONFIG]
  · cases hr : r.config.retrievalThreshold <;>
      simp [KnowledgeBaseService.createKB, KnowledgeBaseService.mergeConfig, hr,
        KnowledgeBaseService.DEFAULT_KB_CONFIG]
  all_goals rw [updateKB_config]
  all_goals cases hc : req.config with
    | none =>
        simp [KnowledgeBaseService.mergeConfig, KnowledgeBaseService.overlayConfig, h1, h2]
    | some p =>
        cases hp1 : p.retrievalTopK <;> cases hp2 : p.retrievalThreshold <;>
          simp [KnowledgeBaseService.mergeConfig, KnowledgeBaseService.overlayConfig,
            hp1, hp2, h1, h2, KnowledgeBaseService.DEFAULT_KB_CONFIG]

/-- C6 witness instance: creating with only `{chunkSize := 500}` keeps the
default provider/model/topK/threshold, and updating a KB whose config has
`chunkSize = 500` with only `{overlap := 50}` preserves `chunkSize = 500`. -/
theorem kb_config_merge_witness :
    (KnowledgeBaseService.createKB { name := "kb", config := { chunkSize := some 500 } }
        "A" 0).config.chunkSize = (some 500).getD 1000 ∧
    (KnowledgeBaseService.createKB { name := "kb", config := { chunkSize := some 500 } }
        "A" 0).config.embeddingProvider = (none : Option String).getD "openai" ∧
    (KnowledgeBaseService.createKB { name := "kb", config := { chunkSize := some 500 } }
        "A" 0).config.retrievalTopK = some ((none : Option Nat).getD 5) ∧
    (KnowledgeBaseService.updateKB
        (KnowledgeBaseService.createKB { name := "kb", config := { chunkSize := some 500 } }
          "A" 0)
        { config := some { overlap := some 50 } } 1).config.chunkSize =
      (none : Option Nat).getD
        (KnowledgeBaseService.createKB { name := "kb", config := { chunkSize := some 500 } }
          "A" 0).config.chunkSize := by
  have h := kb_config_merge
    { name := "kb", config := { chunkSize := some 500 } } "A" 0
    (KnowledgeBaseService.createKB { name := "kb", config := { chunkSize := some 500 } } "A" 0)
    { config := some { overlap := some 50 } } 1 5 (7 / 10) rfl rfl
  exact ⟨h.2.2.2.2.2.1, h.2.2.1, h.2.2.2.2.2.2.2.1,
    h.2.2.2.2.2.2.2.2.2.2.2.2.1⟩

/-- Counter non-negativity is preserved by a single guarded operation. -/
theorem countersNonneg_applyOp (s : KnowledgeBaseService.KBStore) (op : KBOp)
    (h0 : KnowledgeBaseService.countersNonneg s)
    (hg : KnowledgeBaseService.opGuard s op = true) :
    KnowledgeBaseService.countersNonneg (KnowledgeBaseService.applyOp s op) := by
  cases op with
  | create request kbId now =>
    intro id kb hid
    simp only [KnowledgeBaseService.applyOp, KnowledgeBaseService.createKBStore,
      KnowledgeBaseService.setKB] at hid
    by_cases h : id = kbId
    · rw [if_pos h] at hid
      obtain rfl := Option.some.inj hid
      exact ⟨le_refl 0, le_refl 0⟩
    · rw [if_neg h] at hid
      exact h0 id kb hid
  | update kbId request now =>
    intro id kb hid
    simp only [KnowledgeBaseService.applyOp, KnowledgeBaseService.updateKBStore] at hid
    cases hs : s kbId with
    | none =>
      rw [hs] at hid
      exact h0 id kb hid
    | some kb0 =>
      rw [hs] at hid
      simp only [KnowledgeBaseService.setKB] at hid
      by_cases h : id = kbId
      · rw [if_pos h] at hid
        obtain rfl := Option.some.inj hid
        obtain ⟨hA, hB⟩ := h0 kbId kb0 hs
        obtain ⟨hU, hV⟩ := updateKB_counts kb0 request now
        rw [hU, hV]
        exact ⟨hA, hB⟩
      · rw [if_neg h] at hid
        exact h0 id kb hid
  | incDoc kbId delta now =>
    intro id kb hid
    simp only [KnowledgeBaseService.applyOp, KnowledgeBaseService.incrementDocumentCount] at hid
    cases hs : s kbId with
    | none =>
      rw [hs] at hid
      exact h0 id kb hid
    | some kb0 =>
      simp only [KnowledgeBaseService.opGuard, hs] at hg
      rw [decide_eq_true_eq] at hg
      rw [hs] at hid
      simp only [KnowledgeBaseService.setKB] at hid
      by_cases h : id = kbId
      · rw [if_pos h] at hid
        obtain rfl := Option.some.inj hid
        exact ⟨hg, (h0 kbId kb0 hs).2⟩
      · rw [if_neg h] at hid
        exact h0 id kb hid
  | incChunk kbId delta now =>
    intro id kb hid
    simp only [KnowledgeBaseService.applyOp, KnowledgeBaseService.incrementChunkCount] at hid
    cases hs : s kbId with
    | none =>
      rw [hs] at hid
      exact h0 id kb hid
    | some kb0 =>
      simp only [KnowledgeBaseService.opGuard, hs] at hg
      rw [decide_eq_true_eq] at hg
      rw [hs] at hid
      simp only [KnowledgeBaseService.setKB] at hid
      by_cases h : id = kbId
      · rw [if_pos h] at hid
        obtain rfl := Option.some.inj hid
        exact ⟨(h0 kbId kb0 hs).1, hg⟩
      · rw [if_neg h] at hid
        exact h0 id kb hid

/-- C9 (amended): starting from any store whose counters are non-negative
(in particular any store reached from creation, where both are 0), every
sequence of `createKB`/`updateKB`/`incrementDocumentCount`/
`incrementChunkCount` calls in which each decrement is bounded by the
counter's current value keeps both counters non-negative.  (The unguarded
claim is refuted by `kb_counters_nonneg_cex`: the code applies the delta
with no clamping, so a lone `incrementChunkCount(id, -1)` after creation
drives `chunkCount` to −1.) -/
theorem kb_counters_nonneg (s : KnowledgeBaseService.KBStore) (ops : List KBOp)
    (h0 : KnowledgeBaseService.countersNonneg s)
    (hg : KnowledgeBaseService.guardedOps s ops = true) :
    KnowledgeBaseService.countersNonneg (KnowledgeBaseService.applyOps s ops) := by
  induction ops generalizing s with
  | nil => exact h0
  | cons op rest ih =>
    simp only [KnowledgeBaseService.guardedOps, Bool.and_eq_true] at hg
    simp only [KnowledgeBaseService.applyOps, List.foldl_cons]
    exact ih (KnowledgeBaseService.applyOp s op)
      (countersNonneg_applyOp s op h0 hg.1) hg.2

/-- C9 witness instance: create a KB, add 2 chunks, remove 2 chunks — a
guarded run from the empty store keeps the counters non-negative. -/
theorem kb_counters_nonneg_witness :
    KnowledgeBaseService.countersNonneg
      (KnowledgeBaseService.applyOps (fun _ => none)
        [KBOp.create { name := "kb" } "A" 0,
          KBOp.incChunk "A" 2 1,
          KBOp.incChunk "A" (-2) 2]) :=
  kb_counters_nonneg (fun _ => none)
    [KBOp.create { name := "kb" } "A" 0, KBOp.incChunk "A" 2 1, KBOp.incChunk "A" (-2) 2]
    (fun id kb h => by simp at h)
    (by decide)

/-- C9 counterexample: create a KB (counters 0), then call
`incrementChunkCount("A", -1)`: the stored `chunkCount` becomes −1, so the
unguarded invariant is false. -/
theorem kb_counters_nonneg_cex :
    ¬ KnowledgeBaseService.countersNonneg
        (KnowledgeBaseService.applyOps (fun _ => none)
          [KBOp.create { name := "kb" } "A" 0, KBOp.incChunk "A" (-1) 1]) := by
  intro h
  have h4 := (h "A" _ rfl).2
  exact absurd h4 (by decide)

/-- C10: the increment operations change only the targeted KB record, and
on it only the relevant counter plus `updatedAt`; a missing id makes both
calls a global no-op. -/
theorem kb_increment_frame (s : KnowledgeBaseService.KBStore) (kbId : String)
    (delta : Int) (now : Nat) :
    (∀ i, i ≠ kbId →
      KnowledgeBaseService.incrementDocumentCount s kbId delta now i = s i ∧
      KnowledgeBaseService.incrementChunkCount s kbId delta now i = s i) ∧
    (s kbId = none →
      KnowledgeBaseService.incrementDocumentCount s kbId delta now = s ∧
      KnowledgeBaseService.incrementChunkCount s kbId delta now = s) ∧
    (∀ kb, s kbId = some kb →
      KnowledgeBaseService.incrementDocumentCount s kbId delta now kbId =
        some { kb with documentCount := kb.documentCount + delta, updatedAt := now }) ∧
    (∀ kb, s kbId = some kb →
      KnowledgeBaseService.incrementChunkCount s kbId delta now kbId =
        some { kb with chunkCount := kb.chunkCount + delta, updatedAt := now }) := by
  refine ⟨?_, ?_, ?_, ?_⟩
  · intro i hi
    constructor <;>
      · cases hs : s kbId <;>
          simp [KnowledgeBaseService.incrementDocumentCount,
            KnowledgeBaseService.incrementChunkCount, KnowledgeBaseService.setKB, hs, hi]
  · intro h
    constructor <;>
      simp [KnowledgeBaseService.incrementDocumentCount,
        KnowledgeBaseService.incrementChunkCount, h]
  · intro kb h
    simp [KnowledgeBaseService.incrementDocumentCount, KnowledgeBaseService.setKB, h]
  · intro kb h
    simp [KnowledgeBaseService.incrementChunkCount, KnowledgeBaseService.setKB, h]

/-- C10 witness instance: incrementing a present id updates that record;
incrementing an absent id changes nothing. -/
theorem kb_increment_frame_witness :
    (KnowledgeBaseService.incrementDocumentCount (fun _ => none) "B" 1 7 = fun _ => none) ∧
    (KnowledgeBaseService.incrementChunkCount (fun _ => none) "B" 1 7 = fun _ => none) ∧
    KnowledgeBaseService.incrementDocumentCount
        (KnowledgeBaseService.createKBStore (fun _ => none) { name := "kb" } "A" 0)
        "A" 3 9 "A" =
      some { KnowledgeBaseService.createKB { name := "kb" } "A" 0 with
              documentCount :=
                (KnowledgeBaseService.createKB { name := "kb" } "A" 0).documentCount + 3,
              updatedAt := 9 } := by
  refine ⟨(kb_increment_frame (fun _ => none) "B" 1 7).2.1 rfl |>.1,
    (kb_increment_frame (fun _ => none) "B" 1 7).2.1 rfl |>.2, ?_⟩
  exact (kb_increment_frame
      (KnowledgeBaseService.createKBStore (fun _ => none) { name := "kb" } "A" 0)
      "A" 3 9).2.2.1 (KnowledgeBaseService.createKB { name := "kb" } "A" 0) rfl

/-! ## Claim theorems: retrieval engine -/

/-- Provenance of every search result: it is the transform of some backend
row that passed the threshold filter. -/
theorem search_mem (kb : KnowledgeBase) (params : RetrievalParams)
    (query : Nat → List (String × String) → List QueryRow) :
    ∀ r ∈ RetrievalService.search kb params query,
      ∃ row ∈ query (RetrievalService.resolveTopK kb params) (params.metadataFilter.getD []),
        r = RetrievalService.rowToResult kb row ∧
        ¬ 1 - row.distance < RetrievalService.resolveThreshold kb params := by
  intro r hr
  simp only [RetrievalService.search] at hr
  have hperm := List.mergeSort_perm
    ((query (RetrievalService.resolveTopK kb params) (params.metadataFilter.getD [])).filterMap
      fun row =>
        if 1 - row.distance < RetrievalService.resolveThreshold kb params then none
        else some (RetrievalService.rowToResult kb row))
    (fun a b : RetrievalResult => decide (b.similarity ≤ a.similarity))
  obtain ⟨row, hrow, hsome⟩ := List.mem_filterMap.mp (hperm.mem_iff.mp hr)
  by_cases hlt : 1 - row.distance < RetrievalService.resolveThreshold kb params
  · rw [if_pos hlt] at hsome
    exact absurd hsome (by simp)
  · rw [if_neg hlt] at hsome
    obtain rfl := Option.some.inj hsome
    exact ⟨row, hrow, rfl, hlt⟩

/-- C1: `search` resolves `topK` and `threshold` through the documented
`??`-chains, maps each backend distance to `similarity = 1 − distance`,
discards every candidate below the threshold (hence returns `[]` when all
candidates fall below it), keeps every candidate at or above it, and
returns the survivors sorted descending by similarity.  The first conjunct
states that the backend is consulted exactly at the resolved `topK` and
metadata filter. -/
theorem retrieval_search_spec (kb : KnowledgeBase) (params : RetrievalParams)
    (query : Nat → List (String × String) → List QueryRow) :
    (∀ query2 : Nat → List (String × String) → List QueryRow,
      query (params.topK.getD (kb.config.retrievalTopK.getD 5))
          (params.metadataFilter.getD []) =
        query2 (params.topK.getD (kb.config.retrievalTopK.getD 5))
          (params.metadataFilter.getD []) →
      RetrievalService.search kb params query = RetrievalService.search kb params query2) ∧
    (∀ r ∈ RetrievalService.search kb params query,
      params.similarityThreshold.getD (kb.config.retrievalThreshold.getD (7 / 10)) ≤
        r.similarity ∧
      ∃ row ∈ query (params.topK.getD (kb.config.retrievalTopK.getD 5))
          (params.metadataFilter.getD []),
        r = RetrievalService.rowToResult kb row ∧ r.similarity = 1 - row.distance) ∧
    (∀ row ∈ query (params.topK.getD (kb.config.retrievalTopK.getD 5))
        (params.metadataFilter.getD []),
      ¬ 1 - row.distance <
          params.similarityThreshold.getD (kb.config.retrievalThreshold.getD (7 / 10)) →
      RetrievalService.rowToResult kb row ∈ RetrievalService.search kb params query) ∧
    ((∀ row ∈ query (params.topK.getD (kb.config.retrievalTopK.getD 5))
        (params.metadataFilter.getD []),
      1 - row.distance <
        params.similarityThreshold.getD (kb.config.retrievalThreshold.getD (7 / 10))) →
      RetrievalService.search kb params query = []) ∧
    (RetrievalService.search kb params query).Pairwise
      (fun a b => b.similarity ≤ a.similarity) := by
  refine ⟨?_, ?_, ?_, ?_, ?_⟩
  · intro query2 h
    have h2 : query (RetrievalService.resolveTopK kb params) (params.metadataFilter.getD []) =
        query2 (RetrievalService.resolveTopK kb params) (params.metadataFilter.getD []) := h
    simp only [RetrievalService.search, h2]
  · intro r hr
    obtain ⟨row, hrow, rfl, hpass⟩ := search_mem kb params query r hr
    exact ⟨le_of_not_lt hpass, row, hrow, rfl, rfl⟩
  · intro row hrow hpass
    have hmem : RetrievalService.rowToResult kb row ∈
        (query (RetrievalService.resolveTopK kb params)
          (params.metadataFilter.getD [])).filterMap
          (fun row =>
            if 1 - row.distance < RetrievalService.resolveThreshold kb params then none
            else some (RetrievalService.rowToResult kb row)) :=
      List.mem_filterMap.mpr ⟨row, hrow,
        by rw [if_neg (show ¬ 1 - row.distance <
            RetrievalService.resolveThreshold kb params from hpass)]⟩
    have hperm := List.mergeSort_perm
      ((query (RetrievalService.resolveTopK kb params)
        (params.metadataFilter.getD [])).filterMap
        fun row =>
          if 1 - row.distance < RetrievalService.resolveThreshold kb params then none
          else some (RetrievalService.rowToResult kb row))
      (fun a b : RetrievalResult => decide (b.similarity ≤ a.similarity))
    simp only [RetrievalService.search]
    exact hperm.mem_iff.mpr hmem
  · intro hall
    have hall2 : ∀ row ∈ query (RetrievalService.resolveTopK kb params)
        (params.metadataFilter.getD []),
        1 - row.distance < RetrievalService.resolveThreshold kb params := hall
    simp only [RetrievalService.search]
    rw [List.filterMap_eq_nil_iff.mpr fun row hrow => if_pos (hall2 row hrow),
      List.mergeSort_nil]
  · have htrans : ∀ a b c : RetrievalResult,
        decide (b.similarity ≤ a.similarity) = true →
        decide (c.similarity ≤ b.similarity) = true →
        decide (c.similarity ≤ a.similarity) = true := by
      intro a b c h1 h2
      rw [decide_eq_true_eq] at h1 h2 ⊢
      exact le_trans h2 h1
    have htotal : ∀ a b : RetrievalResult,
        (decide (b.similarity ≤ a.similarity) || decide (a.similarity ≤ b.similarity)) =
          true := by
      intro a b
      rcases le_total b.similarity a.similarity with h | h <;> simp [h]
    have hs := List.sorted_mergeSort htrans htotal
      ((query (RetrievalService.resolveTopK kb params)
        (params.metadataFilter.getD [])).filterMap
        fun row =>
          if 1 - row.distance < RetrievalService.resolveThreshold kb params then none
          else some (RetrievalService.rowToResult kb row))
    simp only [RetrievalService.search]
    exact hs.imp fun h => by rwa [decide_eq_true_eq] at h

/-- C1 witness instance: a KB with `retrievalThreshold = 0.9` and a single
candidate at similarity `0.5` yields the empty result list. -/
theorem retrieval_search_spec_witness :
    RetrievalService.search
      { id := "A", name := "kb", description := none,
        config :=
          { embeddingProvider := "openai", embeddingModel := "text-embedding-3-small",
            chunkingStrategy := "fixed", chunkSize := 1000, overlap := 200,
            retrievalTopK := some 5, retrievalThreshold := some (9 / 10) },
        documentCount := 0, chunkCount := 0, createdAt := 0, updatedAt := 0 }
      {}
      (fun _ _ =>
        [{ id := "c1", document := "text", documentId := "doc", chunkIndex := 0,
           startChar := 0, endChar := 4, distance := 1 / 2 }]) = [] :=
  (retrieval_search_spec
      { id := "A", name := "kb", description := none,
        config :=
          { embeddingProvider := "openai", embeddingModel := "text-embedding-3-small",
            chunkingStrategy := "fixed", chunkSize := 1000, overlap := 200,
            retrievalTopK := some 5, retrievalThreshold := some (9 / 10) },
        documentCount := 0, chunkCount := 0, createdAt := 0, updatedAt := 0 }
      {}
      (fun _ _ =>
        [{ id := "c1", document := "text", documentId := "doc", chunkIndex := 0,
           startChar := 0, endChar := 4, distance := 1 / 2 }])).2.2.2.1
    (by intro row hrow; rw [List.mem_singleton] at hrow; subst hrow; norm_num)

/-- C2: every result of `search` against KB A carries `knowledgeBaseId =
A.id`; collection names are injective in the KB id; indexing into KB B
never touches KB A's collection; and every result of a search over the
Chroma state originates from a record of A's own collection whenever the
backend selects rows from the collection it is given. -/
theorem retrieval_isolation (kb : KnowledgeBase) (params : RetrievalParams)
    (query : Nat → List (String × String) → List QueryRow) (s : Store)
    (kbB : KnowledgeBase) (documentId : String) (chunks : List DocumentChunk)
    (embedBatch : List String → Except String (List (List ℚ)))
    (embed : String → Except String (List ℚ))
    (select : List StoredRecord → Nat → List (String × String) → List QueryRow) :
    (∀ r ∈ RetrievalService.search kb params query, r.knowledgeBaseId = kb.id) ∧
    (∀ a b : String,
      RetrievalService.getCollectionName a = RetrievalService.getCollectionName b → a = b) ∧
    (kb.id ≠ kbB.id →
      (RetrievalService.indexChunks embedBatch embed kbB documentId chunks s).2
          (RetrievalService.getCollectionName kb.id) =
        s (RetrievalService.getCollectionName kb.id)) ∧
    ((∀ recs k w, ∀ row ∈ select recs k w, ∃ rec ∈ recs, row.id = rec.id) →
      ∀ r ∈ RetrievalService.searchStore kb params s select,
        ∃ rec ∈ (s (RetrievalService.getCollectionName kb.id)).getD [],
          r.chunk.id = rec.id) := by
  have hinj : ∀ a b : String,
      RetrievalService.getCollectionName a = RetrievalService.getCollectionName b →
      a = b := by
    intro a b h
    simp only [RetrievalService.getCollectionName] at h
    have h2 : ("kb_" ++ a).data = ("kb_" ++ b).data := congrArg String.data h
    rw [String.data_append, String.data_append] at h2
    exact String.ext (List.append_cancel_left h2)
  refine ⟨?_, hinj, ?_, ?_⟩
  · intro r hr
    obtain ⟨row, _, rfl, _⟩ := search_mem kb params query r hr
    rfl
  · intro hne
    cases hE : EmbeddingService.generateEmbeddings kbB.config.embeddingProvider
        embedBatch embed (chunks.map DocumentChunk.content) with
    | error e =>
      simp only [RetrievalService.indexChunks, hE]
    | ok embs =>
      simp only [RetrievalService.indexChunks, hE]
      rw [if_neg fun hcol => hne (hinj kb.id kbB.id hcol)]
  · intro hsel r hr
    obtain ⟨row, hrow, rfl, _⟩ :=
      search_mem kb params (fun k w => select (RetrievalService.getOrCreateCollection s kb) k w)
        r hr
    obtain ⟨rec, hrec, hid⟩ := hsel (RetrievalService.getOrCreateCollection s kb)
      (RetrievalService.resolveTopK kb params) (params.metadataFilter.getD []) row hrow
    exact ⟨rec, hrec, hid⟩

/-- C2 witness instance: indexing a chunk into KB "B" starting from the
empty Chroma state leaves KB "A"'s collection (absent, `none`) untouched. -/
theorem retrieval_isolation_witness :
    (RetrievalService.indexChunks (fun _ => Except.ok [[1]]) (fun _ => Except.ok [1])
        { id := "B", name := "kbB", description := none,
          config :=
            { embeddingProvider := "ollama", embeddingModel := "nomic-embed-text",
              chunkingStrategy := "fixed", chunkSize := 1000, overlap := 200,
              retrievalTopK := some 5, retrievalThreshold := some (7 / 10) },
          documentCount := 0, chunkCount := 0, createdAt := 0, updatedAt := 0 }
        "doc"
        [{ id := "c1", documentId := "doc", content := "hello", chunkIndex := 0,
           startChar := 0, endChar := 5 }]
        (fun _ => none)).2
      (RetrievalService.getCollectionName "A") = none :=
  (retrieval_isolation
      { id := "A", name := "kbA", description := none,
        config :=
          { embeddingProvider := "openai", embeddingModel := "text-embedding-3-small",
            chunkingStrategy := "fixed", chunkSize := 1000, overlap := 200,
            retrievalTopK := some 5, retrievalThreshold := some (7 / 10) },
        documentCount := 0, chunkCount := 0, createdAt := 0, updatedAt := 0 }
      {} (fun _ _ => []) (fun _ => none)
      { id := "B", name := "kbB", description := none,
        config :=
          { embeddingProvider := "ollama", embeddingModel := "nomic-embed-text",
            chunkingStrategy := "fixed", chunkSize := 1000, overlap := 200,
            retrievalTopK := some 5, retrievalThreshold := some (7 / 10) },
        documentCount := 0, chunkCount := 0, createdAt := 0, updatedAt := 0 }
      "doc"
      [{ id := "c1", documentId := "doc", content := "hello", chunkIndex := 0,
         startChar := 0, endChar := 5 }]
      (fun _ => Except.ok [[1]]) (fun _ => Except.ok [1])
      (fun _ _ _ => [])).2.2.1 (by decide)

/-- Sequential embedding fails at the first failing text, however many
texts succeeded before it. -/
theorem embedEach_append_error (embed : String → Except String (List ℚ)) (e : String) :
    ∀ (ts1 : List String) (t : String) (ts2 : List String),
      (∀ u ∈ ts1, ∃ v, embed u = .ok v) → embed t = .error e →
      EmbeddingService.embedEach embed (ts1 ++ t :: ts2) = .error e := by
  intro ts1
  induction ts1 with
  | nil =>
    intro t ts2 _ ht
    simp only [List.nil_append, EmbeddingService.embedEach, ht]
  | cons u us ih =>
    intro t ts2 hall ht
    obtain ⟨v, hv⟩ := hall u (List.mem_cons_self u us)
    simp only [List.cons_append, EmbeddingService.embedEach, hv]
    rw [show EmbeddingService.embedEach embed (us.append (t :: ts2)) = Except.error e from
      ih t ts2 (fun x hx => hall x (List.mem_cons_of_mem _ hx)) ht]

/-- C7: if embedding the chunk contents fails — in particular when one
chunk of a sequentially-embedded (non-openai) batch fails after a prefix
succeeded — the whole `indexChunks` call returns that error and the Chroma
state is returned unchanged: no record of the call is ever added, so a
caller can never observe a strict non-empty prefix of the call's chunks
indexed. -/
theorem retrieval_indexChunks_atomic
    (embedBatch : List String → Except String (List (List ℚ)))
    (embed : String → Except String (List ℚ))
    (kb : KnowledgeBase) (documentId : String) (chunks : List DocumentChunk)
    (s : Store) (e : String) :
    (EmbeddingService.generateEmbeddings kb.config.embeddingProvider embedBatch embed
        (chunks.map DocumentChunk.content) = .error e →
      RetrievalService.indexChunks embedBatch embed kb documentId chunks s =
        (.error e, s)) ∧
    (kb.config.embeddingProvider ≠ "openai" →
      ∀ (pre : List DocumentChunk) (c : DocumentChunk) (post : List DocumentChunk),
        chunks = pre ++ c :: post →
        (∀ c2 ∈ pre, ∃ v, embed c2.content = .ok v) →
        embed c.content = .error e →
        RetrievalService.indexChunks embedBatch embed kb documentId chunks s =
          (.error e, s)) := by
  have hfail : EmbeddingService.generateEmbeddings kb.config.embeddingProvider embedBatch
      embed (chunks.map DocumentChunk.content) = .error e →
      RetrievalService.indexChunks embedBatch embed kb documentId chunks s =
        (.error e, s) := by
    intro h
    simp only [RetrievalService.indexChunks, h]
  refine ⟨hfail, ?_⟩
  intro hprov pre c post hchunks hok hc
  refine hfail ?_
  subst hchunks
  simp only [EmbeddingService.generateEmbeddings, if_neg hprov]
  rw [List.map_append, List.map_cons]
  exact embedEach_append_error embed e (pre.map DocumentChunk.content) c.content
    (post.map DocumentChunk.content)
    (fun u hu => by
      obtain ⟨c2, hc2, rfl⟩ := List.mem_map.mp hu
      exact hok c2 hc2)
    hc

/-- C7 witness instance: an OLLAMA-configured KB whose embedding call fails
on the single chunk; `indexChunks` reports the error and the empty Chroma
state comes back unchanged. -/
theorem retrieval_indexChunks_atomic_witness :
    RetrievalService.indexChunks (fun _ => Except.ok []) (fun _ => Except.error "boom")
        { id := "A", name := "kb", description := none,
          config :=
            { embeddingProvider := "ollama", embeddingModel := "nomic-embed-text",
              chunkingStrategy := "fixed", chunkSize := 1000, overlap := 200,
              retrievalTopK := some 5, retrievalThreshold := some (7 / 10) },
          documentCount := 0, chunkCount := 0, createdAt := 0, updatedAt := 0 }
        "doc"
        [{ id := "c1", documentId := "doc", content := "hello", chunkIndex := 0,
           startChar := 0, endChar := 5 }]
        (fun _ => none) =
      (Except.error "boom", fun _ => none) :=
  (retrieval_indexChunks_atomic (fun _ => Except.ok []) (fun _ => Except.error "boom")
      { id := "A", name := "kb", description := none,
        config :=
          { embeddingProvider := "ollama", embeddingModel := "nomic-embed-text",
            chunkingStrategy := "fixed", chunkSize := 1000, overlap := 200,
            retrievalTopK := some 5, retrievalThreshold := some (7 / 10) },
        documentCount := 0, chunkCount := 0, createdAt := 0, updatedAt := 0 }
      "doc"
      [{ id := "c1", documentId := "doc", content := "hello", chunkIndex := 0,
         startChar := 0, endChar := 5 }]
      (fun _ => none) "boom").2 (by decide) []
    { id := "c1", documentId := "doc", content := "hello", chunkIndex := 0,
      startChar := 0, endChar := 5 }
    [] rfl (by simp) rfl

/-- Deleting the collection of a KB whose collection is absent is the
swallowed-error no-op branch. -/
theorem deleteKB_noop (kb : KnowledgeBase) :
    ∀ s2 : Store, s2 (RetrievalService.getCollectionName kb.id) = none →
      RetrievalService.deleteKnowledgeBase kb s2 = s2 := by
  intro s2 h
  simp only [RetrievalService.deleteKnowledgeBase, RetrievalService.deleteCollection, h]

/-- After `deleteKnowledgeBase`, the KB's collection is gone. -/
theorem deleteKB_clears (kb : KnowledgeBase) (s : Store) :
    RetrievalService.deleteKnowledgeBase kb s
      (RetrievalService.getCollectionName kb.id) = none := by
  cases hs : s (RetrievalService.getCollectionName kb.id) with
  | none => rw [deleteKB_noop kb s hs]; exact hs
  | some recs =>
    simp only [RetrievalService.deleteKnowledgeBase, RetrievalService.deleteCollection, hs]
    simp

/-- C8: `deleteKnowledgeBase` is total (the missing-collection error is
caught and swallowed): on a store without the KB's collection it is the
identity — so deleting a KB that was never indexed into succeeds — its
collection is absent afterwards, and running it twice equals running it
once. -/
theorem retrieval_deleteKB_idempotent (kb : KnowledgeBase) (s : Store) :
    (s (RetrievalService.getCollectionName kb.id) = none →
      RetrievalService.deleteKnowledgeBase kb s = s) ∧
    RetrievalService.deleteKnowledgeBase kb s
      (RetrievalService.getCollectionName kb.id) = none ∧
    RetrievalService.deleteKnowledgeBase kb (RetrievalService.deleteKnowledgeBase kb s) =
      RetrievalService.deleteKnowledgeBase kb s :=
  ⟨deleteKB_noop kb s, deleteKB_clears kb s,
    deleteKB_noop kb (RetrievalService.deleteKnowledgeBase kb s) (deleteKB_clears kb s)⟩

/-- C8 witness instance: deleting a never-indexed KB from the empty Chroma
state is a no-op (and hence can be repeated without error). -/
theorem retrieval_deleteKB_idempotent_witness :
    RetrievalService.deleteKnowledgeBase
        { id := "A", name := "kb", description := none,
          config :=
            { embeddingProvider := "openai", embeddingModel := "text-embedding-3-small",
              chunkingStrategy := "fixed", chunkSize := 1000, overlap := 200,
              retrievalTopK := some 5, retrievalThreshold := some (7 / 10) },
          documentCount := 0, chunkCount := 0, createdAt := 0, updatedAt := 0 }
        (fun _ => none) = fun _ => none :=
  (retrieval_deleteKB_idempotent
      { id := "A", name := "kb", description := none,
        config :=
          { embeddingProvider := "openai", embeddingModel := "text-embedding-3-small",
            chunkingStrategy := "fixed", chunkSize := 1000, overlap := 200,
            retrievalTopK := some 5, retrievalThreshold := some (7 / 10) },
        documentCount := 0, chunkCount := 0, createdAt := 0, updatedAt := 0 }
      (fun _ => none)).1 rfl
